import Mathlib

/-!
Verification of the node-discovery transport engine (discv4 UDP transport)
of this repository: the transport dispatch loop, the reply-matching
registry, the endpoint-proof ("bonding") state machine, and the
findnode/neighbors query protocol including pagination and liveness
gating.  The Go implementation file of the engine is not part of the
source snapshot (only its test file `p2p/discover/v4_udp_test.go` is), so
the engine is modelled from the specification document, with the test
file grounding packet shapes, error values and concrete behaviours.
Machine integers are modelled as `Nat`; identities, IP addresses and
hashes are abstract `Nat` values, as the wire codec is an external
collaborator in the specification.
-/

/-- Modelled from the spec: a logical UDP endpoint (IP, UDP port, TCP
port) as carried in discovery packets; wire byte layout is out of scope. -/
structure Endpoint where
  ip : Nat
  udp : Nat
  tcp : Nat
deriving DecidableEq

/-- Modelled from the spec: a node entry as transmitted inside a
Neighbors packet (identity plus declared endpoint). -/
structure RNode where
  id : Nat
  ip : Nat
  udp : Nat
  tcp : Nat
deriving DecidableEq

/-- Modelled from the spec: a signed local node record (ENR); only its
sequence number and an opaque body matter to this engine, signing is
delegated to the collaborator. -/
structure EnrRecord where
  seq : Nat
  body : Nat
deriving DecidableEq

/-- Modelled from the spec: a routing-table node handle as consumed by
this engine: identity, endpoint and the liveness check count owned by
the table. -/
structure TNode where
  id : Nat
  ip : Nat
  udp : Nat
  tcp : Nat
  livenessChecks : Nat
deriving DecidableEq

/-- Modelled from the spec: the logical fields of the six discovery
packet kinds (Ping/Pong/Findnode/Neighbors/ENRRequest/ENRResponse).
The extra `testpkt` constructor embeds the test file's `testPacket`
type, a packet that consists of a bare kind tag only
(`v4_udp_test.go`, `type testPacket byte`). -/
inductive Packet where
  | ping (version : Nat) (fromEp toEp : Endpoint) (expiration : Nat) (enrSeq : Nat)
  | pong (toEp : Endpoint) (replyTok : Nat) (expiration : Nat) (enrSeq : Nat)
  | findnode (target : Nat) (expiration : Nat)
  | neighbors (nodes : List RNode) (expiration : Nat)
  | enrRequest (expiration : Nat)
  | enrResponse (replyTok : Nat) (record : EnrRecord)
  | testpkt (tag : Nat)
deriving DecidableEq

/-- Modelled from the spec: the wire kind tags of the packet kinds
(Ping=1 … ENRResponse=6); a `testpkt` reports its own stored tag, as in
the test file's `testPacket.Kind`. -/
def Packet.kind : Packet → Nat
  | .ping _ _ _ _ _ => 1
  | .pong _ _ _ _ => 2
  | .findnode _ _ => 3
  | .neighbors _ _ => 4
  | .enrRequest _ => 5
  | .enrResponse _ _ => 6
  | .testpkt tag => tag

/-- Modelled from the spec: the expiration timestamp carried by a
packet, when its kind has one (ENRResponse and the test packet carry
none). -/
def Packet.expirationOf : Packet → Option Nat
  | .ping _ _ _ e _ => some e
  | .pong _ _ e _ => some e
  | .findnode _ e => some e
  | .neighbors _ e => some e
  | .enrRequest e => some e
  | .enrResponse _ _ => none
  | .testpkt _ => none

/-- Modelled from the spec: the typed error taxonomy of the engine
(Expired, UnsolicitedReply, UnknownNode, Timeout, Closed). -/
inductive DErr where
  | expired
  | unsolicitedReply
  | unknownNode
  | timeout
  | closed
deriving DecidableEq

/-- Source error name `errExpired`. -/
def errExpired : DErr := .expired

/-- Source error name `errUnsolicitedReply`. -/
def errUnsolicitedReply : DErr := .unsolicitedReply

/-- Source error name `errUnknownNode`. -/
def errUnknownNode : DErr := .unknownNode

/-- Source error name `errTimeout`. -/
def errTimeout : DErr := .timeout

/-- Source error name `errClosed`. -/
def errClosed : DErr := .closed

/-- Modelled from the spec: a numeric mixing step used to model the
codec collaborator's packet-content hash; injectivity is not assumed
anywhere. -/
def mix2 (a b : Nat) : Nat := a * 1000003 + b + 1

/-- Modelled from the spec: numeric encoding of an endpoint for the
hash model. -/
def Endpoint.enc (e : Endpoint) : Nat := mix2 (mix2 e.ip e.udp) e.tcp

/-- Modelled from the spec: numeric encoding of a wire node for the
hash model. -/
def RNode.enc (n : RNode) : Nat := mix2 (mix2 n.id n.ip) (mix2 n.udp n.tcp)

/-- Modelled from the spec: the codec collaborator's packet hash
(`encode → (bytes, hash, error)`), abstracted as a function of the
logical packet fields. -/
def pktHash : Packet → Nat
  | .ping v f t e s => mix2 1 (mix2 v (mix2 f.enc (mix2 t.enc (mix2 e s))))
  | .pong t tok e s => mix2 2 (mix2 t.enc (mix2 tok (mix2 e s)))
  | .findnode tg e => mix2 3 (mix2 tg e)
  | .neighbors ns e => mix2 4 (mix2 (ns.foldl (fun a n => mix2 a n.enc) 5) e)
  | .enrRequest e => mix2 5 e
  | .enrResponse tok r => mix2 6 (mix2 tok (mix2 r.seq r.body))
  | .testpkt tag => mix2 7 tag

/-- Modelled from the spec: the per-matcher reply predicate/callback,
reframed (as the spec's design notes direct for implementations without
closures) as a tagged per-packet-kind strategy: the ping matcher
accepts exactly a pong whose reply token equals the recorded hash of
the sent ping and is then done; the findnode matcher accumulates nodes
of every Neighbors packet and is never done before its deadline (the
reference behaviour accepts reply packets until the matcher's
deadline); `alwaysDone` is the test file's callback
`func(v4wire.Packet) (bool, bool) { return true, true }`. -/
inductive Strategy where
  | alwaysDone
  | pongMatch (tok : Nat)
  | neighborsAcc
deriving DecidableEq

/-- Modelled from the spec: node-endpoint validation applied to every
entry of a received Neighbors packet before it is handed to the
findnode caller; the declared UDP port must not be a low port (the test
exercises rejection of `discport=17`). -/
def validNode (n : RNode) : Bool := 1024 < n.udp

/-- Modelled from the spec: one pending reply matcher: expected packet
type tag, source node identity, source IP, source UDP port, the
matching strategy, and the accumulated result buffer; `mid` identifies
the matcher's private result channel. -/
structure Matcher where
  mid : Nat
  ptype : Nat
  fromID : Nat
  fromIP : Nat
  fromPort : Nat
  strat : Strategy
  acc : List RNode
deriving DecidableEq

/-- Modelled from the spec: the terminal outcome delivered on a
matcher's result channel: an optional error together with the
accumulated nodes. -/
abbrev Outcome := Option DErr × List RNode

/-- Modelled from the spec: the state owned by the single serialized
transport loop: the ordered registry of pending matchers, the log of
outcomes delivered on result channels, the next fresh channel id, and
the shutdown flag. -/
structure LoopState where
  pending : List Matcher
  delivered : List (Nat × Outcome)
  nextId : Nat
  closed : Bool
deriving DecidableEq

/-- Modelled from the spec: the initial loop state (no pending
matchers, nothing delivered, not shut down). -/
def LoopState.init : LoopState := ⟨[], [], 0, false⟩

/-- Modelled from the spec: whether a pending matcher's expectation
(packet-kind, sender identity, sender IP, sender UDP port) equals the
inbound reply's origin and kind. -/
def keyMatches (m : Matcher) (fromID fromIP fromPort : Nat) (p : Packet) : Bool :=
  m.fromID == fromID && m.fromIP == fromIP && m.fromPort == fromPort && m.ptype == p.kind

/-- Modelled from the spec: invoking a matcher's callback with a
received packet, returning `(matched, done, new accumulator)`. -/
def applyStrategy : Strategy → Packet → List RNode → Bool × Bool × List RNode
  | .alwaysDone, _, acc => (true, true, acc)
  | .pongMatch tok, .pong _ replyTok _ _, acc => (replyTok == tok, replyTok == tok, acc)
  | .pongMatch _, _, acc => (false, false, acc)
  | .neighborsAcc, .neighbors ns _, acc => (true, false, acc ++ ns.filter validNode)
  | .neighborsAcc, _, acc => (true, false, acc)

/-- Modelled from the spec: `handleReply` scanning of the pending
registry: the first matcher whose key equals the reply's origin and
kind has its callback invoked; on `(true, true)` the matcher is removed
and a nil-error outcome is delivered and scanning stops; on
`(true, false)` the matcher stays registered with its updated
accumulator and scanning stops; on `(false, _)` scanning continues with
the remaining matchers.  Returns (matched, new registry, deliveries). -/
def scanReply (fromID fromIP fromPort : Nat) (p : Packet) :
    List Matcher → Bool × List Matcher × List (Nat × Outcome)
  | [] => (false, [], [])
  | m :: rest =>
    if keyMatches m fromID fromIP fromPort p then
      match applyStrategy m.strat p m.acc with
      | (true, true, acc') => (true, rest, [(m.mid, (none, acc'))])
      | (true, false, acc') => (true, { m with acc := acc' } :: rest, [])
      | (false, _, _) =>
        let s := scanReply fromID fromIP fromPort p rest
        (s.1, m :: s.2.1, s.2.2)
    else
      let s := scanReply fromID fromIP fromPort p rest
      (s.1, m :: s.2.1, s.2.2)

/-- Modelled from the spec: removal of the matcher whose deadline
elapsed: returns the removed matcher (if registered) and the remaining
registry. -/
def fireTimer (mid : Nat) : List Matcher → Option Matcher × List Matcher
  | [] => (none, [])
  | m :: rest =>
    if m.mid == mid then (some m, rest)
    else
      let s := fireTimer mid rest
      (s.1, m :: s.2)

/-- Modelled from the spec: the events funneled through the single
serialized dispatch context: matcher registration, an inbound reply,
a matcher deadline elapsing, and process shutdown. -/
inductive Event where
  | register (ptype fromID fromIP fromPort : Nat) (strat : Strategy)
  | reply (fromID fromIP fromPort : Nat) (p : Packet)
  | timerFire (mid : Nat)
  | shutdown
deriving DecidableEq

/-- Modelled from the spec: one step of the transport loop.
Registration inserts a fresh matcher (or delivers the Closed error when
shut down); a reply is dispatched through `scanReply`; an elapsed
deadline removes its matcher and delivers the Timeout error with the
accumulated nodes; shutdown flushes every pending matcher with the
Closed error. -/
def step (st : LoopState) : Event → LoopState
  | .register ptype fromID fromIP fromPort strat =>
    if st.closed then
      { st with delivered := st.delivered ++ [(st.nextId, (some DErr.closed, []))],
                nextId := st.nextId + 1 }
    else
      { st with pending := st.pending ++ [⟨st.nextId, ptype, fromID, fromIP, fromPort, strat, []⟩],
                nextId := st.nextId + 1 }
  | .reply fromID fromIP fromPort p =>
    let s := scanReply fromID fromIP fromPort p st.pending
    { st with pending := s.2.1, delivered := st.delivered ++ s.2.2 }
  | .timerFire mid =>
    match fireTimer mid st.pending with
    | (none, _) => st
    | (some m, rest) =>
      { st with pending := rest,
                delivered := st.delivered ++ [(m.mid, (some DErr.timeout, m.acc))] }
  | .shutdown =>
    { st with pending := [],
              delivered := st.delivered ++ st.pending.map (fun m => (m.mid, (some DErr.closed, m.acc))),
              closed := true }

/-- Modelled from the spec: executing a sequence of events on the
serialized transport loop. -/
def runEvents (st : LoopState) (evs : List Event) : LoopState := evs.foldl step st

/-- Modelled from the spec: the recognized configuration options that
matter to the claims: the reply-timeout duration and the delay before
the reverse ping-back on first contact. -/
structure Config where
  replyTimeout : Nat
  pingBackDelay : Nat
deriving DecidableEq

/-- Modelled from the spec: an outbound datagram: destination IP and
UDP port, the scheduling delay of a deferred send (zero for an
immediate send, the configured ping-back delay for the reverse ping),
and the logical packet. -/
structure Dgram where
  toIP : Nat
  toPort : Nat
  delay : Nat
  pkt : Packet
deriving DecidableEq

/-- Modelled from the spec: freshness window of the endpoint proof
(bond expiration), in seconds. -/
def bondExpiration : Nat := 86400

/-- Modelled from the spec: lifetime given to outbound packets via
their expiration timestamp, in seconds. -/
def expirationD : Nat := 20

/-- Modelled from the spec: the hard per-packet cap on the node count
of a Neighbors packet, enforced by the codec collaborator
(`v4wire.MaxNeighbors`). -/
def maxNeighbors : Nat := 12

/-- Modelled from the spec: the closest-node count of a findnode answer
(the routing table's bucket size). -/
def bucketSize : Nat := 16

/-- Modelled from the spec: the full transport state: the serialized
loop state, the node database's last-pong-received / last-ping-received
records keyed by (identity, IP), the routing-table nodes, the local
endpoint and signed record, the local clock, the configuration and the
log of sent datagrams. -/
structure UDPState where
  loopSt : LoopState
  lastPong : List ((Nat × Nat) × Nat)
  lastPing : List ((Nat × Nat) × Nat)
  tabNodes : List TNode
  localEndpoint : Endpoint
  localRecord : EnrRecord
  now : Nat
  cfg : Config
  sent : List Dgram
deriving DecidableEq

/-- Modelled from the spec: reading a time-or-absent record of the node
database (`getLastPongReceived` / `getLastPingReceived`). -/
def lookupTime (l : List ((Nat × Nat) × Nat)) (id ip : Nat) : Option Nat :=
  l.lookup (id, ip)

/-- Modelled from the spec: whether a recorded timestamp is within the
bond freshness window of the local clock; an absent record is never
recent. -/
def recentTime (now : Nat) : Option Nat → Bool
  | none => false
  | some t => now < t + bondExpiration

/-- Modelled from the spec: the implicit bonding state derived from the
table's records: a sender is bonded exactly when the routing table
shows a recent last-pong-received or a recent last-ping-received for
its identity and IP. -/
def checkBond (st : UDPState) (id ip : Nat) : Bool :=
  recentTime st.now (lookupTime st.lastPong id ip) ||
    recentTime st.now (lookupTime st.lastPing id ip)

/-- Modelled from the spec: writing a last-pong-received record
(`updateLastPongReceived`). -/
def updateLastPong (st : UDPState) (id ip t : Nat) : UDPState :=
  { st with lastPong := ((id, ip), t) :: st.lastPong }

/-- Modelled from the spec: writing a last-ping-received record
(`updateLastPingReceived`). -/
def updateLastPing (st : UDPState) (id ip t : Nat) : UDPState :=
  { st with lastPing := ((id, ip), t) :: st.lastPing }

/-- Modelled from the spec: whether the routing table already knows a
sender's identity. -/
def knownToTable (st : UDPState) (id : Nat) : Bool :=
  st.tabNodes.any (fun n => n.id == id)

/-- Modelled from the spec: conversion of a table node to its wire form
for a Neighbors packet. -/
def nodeToRPC (n : TNode) : RNode := ⟨n.id, n.ip, n.udp, n.tcp⟩

/-- Modelled from the spec: the XOR distance metric on node
identities. -/
def xorDist (a b : Nat) : Nat := Nat.xor a b

/-- Modelled from the spec: the routing-table collaborator's
`findClosest(targetID, n, onlyLive)` query: the `n` table nodes closest
by XOR distance to the target, restricted to nodes that have passed at
least one liveness check, in ascending distance order. -/
def closestLiveNodes (tab : List TNode) (target n : Nat) : List TNode :=
  (List.insertionSort (fun a b => xorDist a.id target ≤ xorDist b.id target)
    (tab.filter (fun nd => 0 < nd.livenessChecks))).take n

/-- Modelled from the spec: splitting an ordered result list into
consecutive packets of at most `k` nodes each (pagination of a
Neighbors response). -/
def chunksOf (k : Nat) : List α → List (List α)
  | [] => []
  | x :: xs => (x :: List.take (k - 1) xs) :: chunksOf k (List.drop (k - 1) xs)
termination_by l => l.length
decreasing_by simp; omega

/-- Modelled from the spec: sending a Ping and registering a reply
matcher that expects a Pong from the target's identity, declared IP and
UDP port whose reply token equals the hash of the sent packet.  Returns
the new state together with that hash. -/
def sendPing (st : UDPState) (toID toIP toPort delay : Nat) : UDPState × Nat :=
  let req : Packet :=
    .ping 4 st.localEndpoint ⟨toIP, toPort, 0⟩ (st.now + expirationD) st.localRecord.seq
  let h := pktHash req
  ({ st with
      loopSt := step st.loopSt (.register 2 toID toIP toPort (.pongMatch h)),
      sent := st.sent ++ [⟨toIP, toPort, delay, req⟩] }, h)

/-- Modelled from the spec: handling of an inbound reply-kind packet
(Pong/Neighbors/ENRResponse): delivered through the reply registry; if
no pending matcher accepts it the packet is rejected as an unsolicited
reply; an accepted Pong additionally records last-pong-received for the
sender. -/
def replyPath (st : UDPState) (fromID fromIP fromPort : Nat) (p : Packet)
    (recordPong : Bool) : Option DErr × UDPState :=
  let s := scanReply fromID fromIP fromPort p st.loopSt.pending
  if s.1 then
    let st' := { st with
      loopSt := { st.loopSt with pending := s.2.1, delivered := st.loopSt.delivered ++ s.2.2 } }
    (none, if recordPong then updateLastPong st' fromID fromIP st.now else st')
  else
    (some DErr.unsolicitedReply, st)

/-- Modelled from the spec: handling of an inbound Ping: always
accepted regardless of bonding state; replies with a Pong echoing the
inbound packet's content hash as reply token, mirroring the
transport-observed source address and UDP port (the TCP port is the one
declared in the ping), and carrying the local record's sequence number;
records last-ping-received; if the sender is unknown to the routing
table, additionally initiates a reverse Ping after the configured
ping-back delay. -/
def handlePing (st : UDPState) (fromID fromIP fromPort : Nat) (fromEp : Endpoint)
    (p : Packet) : Option DErr × UDPState :=
  let pongPkt : Packet :=
    .pong ⟨fromIP, fromPort, fromEp.tcp⟩ (pktHash p) (st.now + expirationD) st.localRecord.seq
  let st1 := { st with sent := st.sent ++ [⟨fromIP, fromPort, 0, pongPkt⟩] }
  let st2 := updateLastPing st1 fromID fromIP st.now
  if knownToTable st fromID then (none, st2)
  else (none, (sendPing st2 fromID fromIP fromPort st.cfg.pingBackDelay).1)

/-- Modelled from the spec: handling of an inbound Findnode: rejected
with the UnknownNode error unless the sender is bonded; on acceptance
the closest live nodes to the target are computed from the routing
table and sent back split into Neighbors packets of at most
`maxNeighbors` nodes each, in ascending XOR-distance order. -/
def handleFindnode (st : UDPState) (fromID fromIP fromPort target : Nat) :
    Option DErr × UDPState :=
  if checkBond st fromID fromIP then
    let closest := (closestLiveNodes st.tabNodes target bucketSize).map nodeToRPC
    let pkts := (chunksOf maxNeighbors closest).map
      (fun c => (⟨fromIP, fromPort, 0, .neighbors c (st.now + expirationD)⟩ : Dgram))
    (none, { st with sent := st.sent ++ pkts })
  else
    (some DErr.unknownNode, st)

/-- Modelled from the spec: handling of an inbound ENRRequest: rejected
with the UnknownNode error unless the sender is bonded; otherwise
answered with an ENRResponse carrying the local signed record and
echoing the request's hash as reply token. -/
def handleENRRequest (st : UDPState) (fromID fromIP fromPort : Nat) (p : Packet) :
    Option DErr × UDPState :=
  if checkBond st fromID fromIP then
    (none, { st with
      sent := st.sent ++ [⟨fromIP, fromPort, 0, .enrResponse (pktHash p) st.localRecord⟩] })
  else
    (some DErr.unknownNode, st)

/-- Modelled from the spec: kind dispatch of a non-expired inbound
packet. -/
def dispatchPacket (st : UDPState) (fromID fromIP fromPort : Nat) :
    Packet → Option DErr × UDPState
  | .ping v fromEp toEp e s => handlePing st fromID fromIP fromPort fromEp (.ping v fromEp toEp e s)
  | .pong toEp tok e s => replyPath st fromID fromIP fromPort (.pong toEp tok e s) true
  | .findnode target _ => handleFindnode st fromID fromIP fromPort target
  | .neighbors ns e => replyPath st fromID fromIP fromPort (.neighbors ns e) false
  | .enrRequest e => handleENRRequest st fromID fromIP fromPort (.enrRequest e)
  | .enrResponse tok r => replyPath st fromID fromIP fromPort (.enrResponse tok r) false
  | .testpkt tag => replyPath st fromID fromIP fromPort (.testpkt tag) false

/-- Modelled from the spec: the inbound packet-handling entry point:
a packet whose expiration timestamp is in the past relative to the
local clock is rejected with the Expired error before kind dispatch and
no reply is sent; otherwise the packet is dispatched by kind. -/
def handlePacket (st : UDPState) (fromID fromIP fromPort : Nat) (p : Packet) :
    Option DErr × UDPState :=
  match p.expirationOf with
  | some e =>
    if e < st.now then (some DErr.expired, st)
    else dispatchPacket st fromID fromIP fromPort p
  | none => dispatchPacket st fromID fromIP fromPort p

/-! ### Helper lemmas about pagination and the closest-node query -/

theorem chunksOf_flatten (k : Nat) (l : List α) : (chunksOf k l).flatten = l := by
  refine chunksOf.induct k (fun l => (chunksOf k l).flatten = l) ?_ ?_ l
  · simp [chunksOf]
  · intro x xs ih
    rw [chunksOf, List.flatten_cons, ih, List.cons_append, List.take_append_drop]

theorem chunksOf_length (k : Nat) (hk : 0 < k) (l : List α) :
    (chunksOf k l).length = (l.length + (k - 1)) / k := by
  refine chunksOf.induct k (fun l => (chunksOf k l).length = (l.length + (k - 1)) / k) ?_ ?_ l
  · simp only [chunksOf, List.length_nil, Nat.zero_add]
    exact (Nat.div_eq_of_lt (by omega)).symm
  · intro x xs ih
    rw [chunksOf]
    simp only [List.length_cons, ih, List.length_drop]
    rcases Nat.lt_or_ge xs.length (k - 1) with h | h
    · have h1 : xs.length - (k - 1) + (k - 1) = k - 1 := by omega
      have h2 : xs.length + 1 + (k - 1) = xs.length + k := by omega
      rw [h1, h2, Nat.add_div_right _ hk, Nat.div_eq_of_lt (by omega),
        Nat.div_eq_of_lt (by omega)]
    · have h1 : xs.length - (k - 1) + (k - 1) = xs.length := by omega
      have h2 : xs.length + 1 + (k - 1) = xs.length + k := by omega
      rw [h1, h2, Nat.add_div_right _ hk]

theorem closestLive_pairwise (tab : List TNode) (target n : Nat) :
    (closestLiveNodes tab target n).Pairwise
      (fun a b => xorDist a.id target ≤ xorDist b.id target) := by
  have hs := @List.sorted_insertionSort TNode
    (fun a b => xorDist a.id target ≤ xorDist b.id target)
    (fun a b => Nat.decLe _ _)
    ⟨fun a b => Nat.le_total _ _⟩
    ⟨fun a b c h1 h2 => Nat.le_trans h1 h2⟩
    (tab.filter (fun nd => 0 < nd.livenessChecks))
  exact List.Pairwise.sublist (List.take_sublist _ _) hs

theorem closestLive_live (tab : List TNode) (target n : Nat) :
    ∀ nd ∈ closestLiveNodes tab target n, 0 < nd.livenessChecks := by
  intro nd hnd
  have h1 : nd ∈ List.insertionSort
      (fun a b => xorDist a.id target ≤ xorDist b.id target)
      (tab.filter (fun x => 0 < x.livenessChecks)) :=
    (List.take_sublist _ _).subset hnd
  have h2 : nd ∈ tab.filter (fun x => 0 < x.livenessChecks) :=
    (List.perm_insertionSort _ _).subset h1
  simpa using List.of_mem_filter h2

/-! ### Helper lemmas about the reply registry -/

theorem scanReply_mids (fid fip fport : Nat) (p : Packet) (l : List Matcher) :
    ((scanReply fid fip fport p l).2.1.map Matcher.mid ++
      (scanReply fid fip fport p l).2.2.map Prod.fst).Perm (l.map Matcher.mid) := by
  induction l with
  | nil => simp [scanReply]
  | cons m rest ih =>
    rw [scanReply]
    split
    · split
      · simp only [List.map_cons, List.map_nil, List.map]
        exact List.perm_append_singleton _ _
      · simp
      · simp only [List.map_cons, List.cons_append]
        exact ih.cons _
    · simp only [List.map_cons, List.cons_append]
      exact ih.cons _

theorem fireTimer_some (mid : Nat) (l : List Matcher) (m : Matcher) (rest : List Matcher)
    (h : fireTimer mid l = (some m, rest)) : l.Perm (m :: rest) ∧ m.mid = mid := by
  induction l generalizing rest with
  | nil => simp [fireTimer] at h
  | cons x xs ih =>
    by_cases hb : (x.mid == mid) = true
    · rw [fireTimer, if_pos hb] at h
      simp only [Prod.mk.injEq, Option.some.injEq] at h
      obtain ⟨hm, hr⟩ := h
      subst hm; subst hr
      exact ⟨List.Perm.refl _, by simpa using hb⟩
    · rw [fireTimer, if_neg hb] at h
      rcases hfx : fireTimer mid xs with ⟨o, tail⟩
      simp only [hfx, Prod.mk.injEq] at h
      obtain ⟨h1, h2⟩ := h
      subst h1
      obtain ⟨hperm, hmid⟩ := ih tail hfx
      subst h2
      exact ⟨(hperm.cons x).trans (List.Perm.swap m x tail), hmid⟩

theorem fireTimer_none (mid : Nat) (l : List Matcher) (h : ∀ m ∈ l, m.mid ≠ mid) :
    fireTimer mid l = (none, l) := by
  induction l with
  | nil => rw [fireTimer]
  | cons x xs ih =>
    have hb : ¬((x.mid == mid) = true) := by
      simpa using h x (List.mem_cons_self x xs)
    rw [fireTimer, if_neg hb, ih fun m hm => h m (List.mem_cons_of_mem x hm)]

/-- The multiset of result-channel identities live in a loop state:
those of the pending matchers together with those already delivered. -/
def allMids (st : LoopState) : List Nat :=
  st.pending.map Matcher.mid ++ st.delivered.map Prod.fst

/-- The registry invariant: no channel id is duplicated between pending
matchers and delivered outcomes, and all ids are below the fresh-id
counter. -/
def LoopInv (st : LoopState) : Prop :=
  (allMids st).Nodup ∧ ∀ x ∈ allMids st, x < st.nextId

theorem inv_of_perm (st' st : LoopState) (h : LoopInv st)
    (hperm : (allMids st').Perm (allMids st)) (hid : st.nextId ≤ st'.nextId) :
    LoopInv st' :=
  ⟨hperm.symm.nodup h.1,
    fun x hx => Nat.lt_of_lt_of_le (h.2 x (hperm.subset hx)) hid⟩

theorem inv_of_perm_snoc (st' st : LoopState) (h : LoopInv st)
    (hperm : (allMids st').Perm (allMids st ++ [st.nextId]))
    (hid : st'.nextId = st.nextId + 1) : LoopInv st' := by
  constructor
  · refine hperm.symm.nodup ?_
    rw [List.nodup_append]
    refine ⟨h.1, List.nodup_singleton _, ?_⟩
    intro x hx hx'
    simp only [List.mem_singleton] at hx'
    subst hx'
    exact absurd (h.2 _ hx) (Nat.lt_irrefl _)
  · intro x hx
    have hmem := hperm.subset hx
    rw [List.mem_append] at hmem
    rcases hmem with hx1 | hx1
    · exact hid ▸ Nat.lt_succ_of_lt (h.2 _ hx1)
    · simp only [List.mem_singleton] at hx1
      subst hx1
      omega

theorem step_inv (st : LoopState) (e : Event) (h : LoopInv st) : LoopInv (step st e) := by
  cases e with
  | register pt fid fip fport strat =>
    rw [step]
    by_cases hc : st.closed
    · rw [if_pos hc]
      refine inv_of_perm_snoc _ st h ?_ rfl
      simp only [allMids, List.map_append, List.map_cons, List.map_nil, List.append_assoc]
      exact List.Perm.refl _
    · rw [if_neg hc]
      refine inv_of_perm_snoc _ st h ?_ rfl
      simp only [allMids, List.map_append, List.map_cons, List.map_nil, List.append_assoc]
      exact List.Perm.append_left _ List.perm_append_comm
  | reply fid fip fport p =>
    rw [step]
    refine inv_of_perm _ st h ?_ (Nat.le_refl _)
    have hs := scanReply_mids fid fip fport p st.pending
    simp only [allMids, List.map_append]
    refine (List.Perm.append_left _ List.perm_append_comm).trans ?_
    rw [← List.append_assoc]
    exact hs.append_right _
  | timerFire mid =>
    rcases hft : fireTimer mid st.pending with ⟨o, rest⟩
    cases o with
    | none =>
      rw [step]
      simp only [hft]
      exact h
    | some m =>
      obtain ⟨hperm, _⟩ := fireTimer_some mid st.pending m rest hft
      rw [step]
      simp only [hft]
      refine inv_of_perm _ st h ?_ (Nat.le_refl _)
      simp only [allMids, List.map_append, List.map_cons, List.map_nil]
      have h2 : (st.pending.map Matcher.mid).Perm (m.mid :: rest.map Matcher.mid) := by
        simpa using hperm.map Matcher.mid
      refine (List.Perm.append_left _ List.perm_append_comm).trans ?_
      rw [← List.append_assoc]
      refine List.Perm.append_right _ ?_
      exact (List.perm_append_singleton _ _).trans h2.symm
  | shutdown =>
    rw [step]
    refine inv_of_perm _ st h ?_ (Nat.le_refl _)
    simp only [allMids, List.map_append, List.map_map, List.map_nil, List.nil_append,
      Function.comp]
    exact List.perm_append_comm

theorem runEvents_inv (evs : List Event) (st : LoopState) (h : LoopInv st) :
    LoopInv (runEvents st evs) := by
  induction evs generalizing st with
  | nil => exact h
  | cons e es ih => exact ih _ (step_inv _ _ h)

theorem init_inv : LoopInv LoopState.init := by
  constructor <;> simp [allMids, LoopState.init]

/-! ### Claim C9: expired packets -/

/-- A concrete transport state used by witnesses: one live table node,
fresh registry, local clock at 100. -/
def sampleState : UDPState where
  loopSt := LoopState.init
  lastPong := []
  lastPing := []
  tabNodes := [⟨77, 9, 3000, 3001, 1⟩]
  localEndpoint := ⟨5, 6, 7⟩
  localRecord := ⟨9, 1⟩
  now := 100
  cfg := ⟨500, 3⟩
  sent := []

/-- C9: for every inbound packet whose expiration timestamp is in the
past relative to the local clock, the packet-handling entry point
rejects it with the Expired typed error before kind dispatch, and no
reply packet is sent to the sender (the state, in particular the log of
sent datagrams, is unchanged). -/
theorem C9_expired_rejected_before_dispatch (st : UDPState) (fid fip fport : Nat)
    (p : Packet) (e : Nat) (hexp : p.expirationOf = some e) (hlate : e < st.now) :
    handlePacket st fid fip fport p = (some DErr.expired, st) := by
  simp only [handlePacket, hexp, if_pos hlate]

/-- Witness for C9 at a concrete expired ping. -/
theorem C9_expired_rejected_before_dispatch_witness :
    (Packet.ping 4 ⟨9, 9, 9⟩ ⟨8, 8, 8⟩ 7 0).expirationOf = some 7 ∧
    7 < sampleState.now ∧
    handlePacket sampleState 1 2 3 (.ping 4 ⟨9, 9, 9⟩ ⟨8, 8, 8⟩ 7 0) =
      (some DErr.expired, sampleState) :=
  ⟨rfl, by decide,
    C9_expired_rejected_before_dispatch sampleState 1 2 3 _ 7 rfl (by decide)⟩

/-! ### Claim C6: ping handling and address mirroring -/

/-- C6: every non-expired inbound Ping is accepted regardless of the
sender's bonding state; the handler replies with a Pong whose reply
token is the hash of the received ping packet, whose To endpoint
mirrors the transport-observed source IP and UDP port of the sender
(not the addresses declared inside the packet), and which carries the
local record's ENR sequence number; if the sender is unknown to the
routing table a reverse Ping is additionally sent after the configured
ping-back delay. -/
theorem C6_ping_accepted_and_mirrored (st : UDPState) (fid fip fport : Nat)
    (v : Nat) (fromEp toEp : Endpoint) (e s : Nat) (hfresh : ¬ e < st.now) :
    (handlePacket st fid fip fport (.ping v fromEp toEp e s)).1 = none ∧
    (handlePacket st fid fip fport (.ping v fromEp toEp e s)).2.sent =
      st.sent ++
        (⟨fip, fport, 0,
          .pong ⟨fip, fport, fromEp.tcp⟩ (pktHash (.ping v fromEp toEp e s))
            (st.now + expirationD) st.localRecord.seq⟩ : Dgram) ::
        (if knownToTable st fid then []
         else [⟨fip, fport, st.cfg.pingBackDelay,
           .ping 4 st.localEndpoint ⟨fip, fport, 0⟩ (st.now + expirationD)
             st.localRecord.seq⟩]) := by
  constructor
  · simp only [handlePacket, Packet.expirationOf, if_neg hfresh, dispatchPacket, handlePing]
    by_cases hk : knownToTable st fid
    · simp [hk]
    · simp [hk, sendPing]
  · simp only [handlePacket, Packet.expirationOf, if_neg hfresh, dispatchPacket, handlePing]
    by_cases hk : knownToTable st fid
    · simp [hk, updateLastPing]
    · simp [hk, sendPing, updateLastPing]

/-- Witness for C6 at a concrete state with an unknown sender, so the
reverse ping-back is exercised. -/
theorem C6_ping_accepted_and_mirrored_witness :
    ¬ (200 < sampleState.now) ∧
    ((handlePacket sampleState 1 2 3 (.ping 4 ⟨9, 9, 9⟩ ⟨8, 8, 8⟩ 200 0)).1 = none ∧
     (handlePacket sampleState 1 2 3 (.ping 4 ⟨9, 9, 9⟩ ⟨8, 8, 8⟩ 200 0)).2.sent =
       sampleState.sent ++
         (⟨2, 3, 0,
           .pong ⟨2, 3, (⟨9, 9, 9⟩ : Endpoint).tcp⟩ (pktHash (.ping 4 ⟨9, 9, 9⟩ ⟨8, 8, 8⟩ 200 0))
             (sampleState.now + expirationD) sampleState.localRecord.seq⟩ : Dgram) ::
         (if knownToTable sampleState 1 then []
          else [⟨2, 3, sampleState.cfg.pingBackDelay,
            .ping 4 sampleState.localEndpoint ⟨2, 3, 0⟩ (sampleState.now + expirationD)
              sampleState.localRecord.seq⟩])) :=
  ⟨by decide, C6_ping_accepted_and_mirrored sampleState 1 2 3 4 ⟨9, 9, 9⟩ ⟨8, 8, 8⟩ 200 0 (by decide)⟩

/-! ### Claim C1: pong reply matching -/

theorem scanReply_pongSingle (mid nid nip nport tok srcIP h : Nat)
    (toEp : Endpoint) (e s : Nat) :
    scanReply nid srcIP nport (.pong toEp tok e s)
        [⟨mid, 2, nid, nip, nport, .pongMatch h, []⟩] =
      if tok = h ∧ srcIP = nip then (true, [], [(mid, (none, []))])
      else (false, [⟨mid, 2, nid, nip, nport, .pongMatch h, []⟩], []) := by
  by_cases hip : srcIP = nip
  · subst hip
    by_cases htok : tok = h
    · subst htok
      simp [scanReply, keyMatches, Packet.kind, applyStrategy]
    · have hb : (tok == h) = false := by
        simpa using htok
      simp [scanReply, keyMatches, Packet.kind, applyStrategy, htok, hb]
  · have hip' : nip ≠ srcIP := fun hh => hip hh.symm
    simp [scanReply, keyMatches, Packet.kind, hip, hip']

theorem sendPing_loop (st0 : UDPState) (nid nip nport d : Nat)
    (hcl : st0.loopSt.closed = false) :
    (sendPing st0 nid nip nport d).1.loopSt.pending =
      st0.loopSt.pending ++ [⟨st0.loopSt.nextId, 2, nid, nip, nport,
        .pongMatch (sendPing st0 nid nip nport d).2, []⟩] := by
  simp [sendPing, step, hcl]

/-- C1: after a Ping is sent to a node (declared IP `nip`, UDP port
`nport`), an inbound Pong from that sender is accepted — the matcher
resolves with nil error — if and only if its reply token equals the
hash of the most recently sent Ping and its source IP equals the
target's declared IP; a wrong token from the same sender and a correct
token from a different source IP are both rejected with the
UnsolicitedReply error. -/
theorem C1_pong_accepted_iff_token_and_ip (st0 : UDPState) (nid nip nport d : Nat)
    (toEp : Endpoint) (tok srcIP e s : Nat)
    (hpend0 : st0.loopSt.pending = []) (hcl : st0.loopSt.closed = false)
    (hfresh : ¬ e < st0.now) :
    ((handlePacket (sendPing st0 nid nip nport d).1 nid srcIP nport
        (.pong toEp tok e s)).1 = none ↔
      tok = (sendPing st0 nid nip nport d).2 ∧ srcIP = nip) ∧
    (tok = (sendPing st0 nid nip nport d).2 ∧ srcIP = nip →
      (handlePacket (sendPing st0 nid nip nport d).1 nid srcIP nport
        (.pong toEp tok e s)).2.loopSt.delivered =
        st0.loopSt.delivered ++ [(st0.loopSt.nextId, (none, []))]) ∧
    (¬ tok = (sendPing st0 nid nip nport d).2 →
      (handlePacket (sendPing st0 nid nip nport d).1 nid srcIP nport
        (.pong toEp tok e s)).1 = some DErr.unsolicitedReply) ∧
    (¬ srcIP = nip →
      (handlePacket (sendPing st0 nid nip nport d).1 nid srcIP nport
        (.pong toEp tok e s)).1 = some DErr.unsolicitedReply) := by
  have hpend := sendPing_loop st0 nid nip nport d hcl
  rw [hpend0] at hpend
  simp only [List.nil_append] at hpend
  generalize hH : (sendPing st0 nid nip nport d).2 = H at hpend ⊢
  generalize hS : (sendPing st0 nid nip nport d).1 = S at hpend ⊢
  have hnow : S.now = st0.now := by rw [← hS]; rfl
  have hdel : S.loopSt.delivered = st0.loopSt.delivered := by
    rw [← hS]; simp [sendPing, step, hcl]
  have hcomp : handlePacket S nid srcIP nport (.pong toEp tok e s) =
      (if tok = H ∧ srcIP = nip
       then (none, updateLastPong
         { S with loopSt := { S.loopSt with
             pending := []
             delivered := S.loopSt.delivered ++ [(st0.loopSt.nextId, (none, []))] } }
         nid srcIP st0.now)
       else (some DErr.unsolicitedReply, S)) := by
    simp only [handlePacket, Packet.expirationOf, hnow, if_neg hfresh, dispatchPacket,
      replyPath, hpend, scanReply_pongSingle]
    by_cases hc : tok = H ∧ srcIP = nip
    · simp [hc]
    · simp [hc]
  refine ⟨?_, ?_, ?_, ?_⟩
  · rw [hcomp]
    by_cases hc : tok = H ∧ srcIP = nip
    · simp [hc]
    · simp [hc]
  · intro hc
    rw [hcomp, if_pos hc]
    simp [updateLastPong, hdel]
  · intro hc
    rw [hcomp, if_neg (fun hcc => hc hcc.1)]
  · intro hc
    rw [hcomp, if_neg (fun hcc => hc hcc.2)]

/-- Witness for C1: a pong carrying the very hash of the sent ping and
the pinged node's declared IP is accepted at a concrete state. -/
theorem C1_pong_accepted_iff_token_and_ip_witness :
    sampleState.loopSt.pending = [] ∧ sampleState.loopSt.closed = false ∧
    ¬ (150 < sampleState.now) ∧
    (((handlePacket (sendPing sampleState 50 60 70 0).1 50 60 70
          (.pong ⟨0, 0, 0⟩ (sendPing sampleState 50 60 70 0).2 150 0)).1 = none ↔
        (sendPing sampleState 50 60 70 0).2 = (sendPing sampleState 50 60 70 0).2 ∧
          (60 : Nat) = 60) ∧
      ((sendPing sampleState 50 60 70 0).2 = (sendPing sampleState 50 60 70 0).2 ∧
          (60 : Nat) = 60 →
        (handlePacket (sendPing sampleState 50 60 70 0).1 50 60 70
            (.pong ⟨0, 0, 0⟩ (sendPing sampleState 50 60 70 0).2 150 0)).2.loopSt.delivered =
          sampleState.loopSt.delivered ++ [(sampleState.loopSt.nextId, (none, []))]) ∧
      (¬ (sendPing sampleState 50 60 70 0).2 = (sendPing sampleState 50 60 70 0).2 →
        (handlePacket (sendPing sampleState 50 60 70 0).1 50 60 70
            (.pong ⟨0, 0, 0⟩ (sendPing sampleState 50 60 70 0).2 150 0)).1 =
          some DErr.unsolicitedReply) ∧
      (¬ (60 : Nat) = 60 →
        (handlePacket (sendPing sampleState 50 60 70 0).1 50 60 70
            (.pong ⟨0, 0, 0⟩ (sendPing sampleState 50 60 70 0).2 150 0)).1 =
          some DErr.unsolicitedReply)) :=
  ⟨rfl, rfl, by decide,
    C1_pong_accepted_iff_token_and_ip sampleState 50 60 70 0 ⟨0, 0, 0⟩
      ((sendPing sampleState 50 60 70 0).2) 60 150 0 rfl rfl (by decide)⟩

/-! ### Claim C2: findnode bonding gate -/

/-- C2: a Findnode from a sender for which the routing table records
neither a last-pong-received nor a last-ping-received entry is rejected
with the UnknownNode error and no Neighbors reply is sent (the state is
unchanged); after a last-pong-received record is written for that
sender, the identical Findnode packet is accepted and answered with the
paginated Neighbors response. -/
theorem C2_findnode_requires_bond (st : UDPState) (fid fip fport target e : Nat)
    (hfresh : ¬ e < st.now)
    (hnopong : lookupTime st.lastPong fid fip = none)
    (hnoping : lookupTime st.lastPing fid fip = none) :
    handlePacket st fid fip fport (.findnode target e) = (some DErr.unknownNode, st) ∧
    (handlePacket (updateLastPong st fid fip st.now) fid fip fport (.findnode target e)).1
      = none ∧
    (handlePacket (updateLastPong st fid fip st.now) fid fip fport (.findnode target e)).2.sent
      = st.sent ++
        (chunksOf maxNeighbors
          ((closestLiveNodes st.tabNodes target bucketSize).map nodeToRPC)).map
          (fun c => (⟨fip, fport, 0, .neighbors c (st.now + expirationD)⟩ : Dgram)) := by
  have hnobond : checkBond st fid fip = false := by
    simp [checkBond, hnopong, hnoping, recentTime]
  have hbond : checkBond (updateLastPong st fid fip st.now) fid fip = true := by
    simp [checkBond, updateLastPong, lookupTime, recentTime, bondExpiration]
  refine ⟨?_, ?_, ?_⟩
  · simp only [handlePacket, Packet.expirationOf, if_neg hfresh, dispatchPacket,
      handleFindnode, hnobond, Bool.false_eq_true, if_false]
  · have hnow2 : (updateLastPong st fid fip st.now).now = st.now := rfl
    simp only [handlePacket, Packet.expirationOf, hnow2, if_neg hfresh, dispatchPacket,
      handleFindnode, hbond, if_true]
  · have hnow2 : (updateLastPong st fid fip st.now).now = st.now := rfl
    simp only [handlePacket, Packet.expirationOf, hnow2, if_neg hfresh, dispatchPacket,
      handleFindnode, hbond, if_true]
    rfl

/-- Witness for C2 at a concrete state whose table holds one live node,
so the accepted Findnode is answered with a non-empty Neighbors packet. -/
theorem C2_findnode_requires_bond_witness :
    ¬ (150 < sampleState.now) ∧
    lookupTime sampleState.lastPong 1 2 = none ∧
    lookupTime sampleState.lastPing 1 2 = none ∧
    (handlePacket sampleState 1 2 3 (.findnode 5 150) = (some DErr.unknownNode, sampleState) ∧
     (handlePacket (updateLastPong sampleState 1 2 sampleState.now) 1 2 3
        (.findnode 5 150)).1 = none ∧
     (handlePacket (updateLastPong sampleState 1 2 sampleState.now) 1 2 3
        (.findnode 5 150)).2.sent
       = sampleState.sent ++
         (chunksOf maxNeighbors
           ((closestLiveNodes sampleState.tabNodes 5 bucketSize).map nodeToRPC)).map
           (fun c => (⟨2, 3, 0, .neighbors c (sampleState.now + expirationD)⟩ : Dgram))) :=
  ⟨by decide, rfl, rfl,
    C2_findnode_requires_bond sampleState 1 2 3 5 150 (by decide) rfl rfl⟩

/-! ### Claim C3: neighbors pagination, liveness gating and ordering -/

/-- C3: an accepted Findnode is answered with the nodes of a direct
closest-N-live-nodes-to-target table query taken at the same state,
split into Neighbors packets whose concatenation is exactly that query
result, using at most `ceil(count / maxNeighbors)` packets, containing
only nodes with at least one passed liveness check, with XOR distance
to the target non-decreasing across packet boundaries. -/
theorem C3_neighbors_match_table_query (st : UDPState) (fid fip fport target e : Nat)
    (hfresh : ¬ e < st.now) (hbond : checkBond st fid fip = true) :
    (handlePacket st fid fip fport (.findnode target e)).1 = none ∧
    (handlePacket st fid fip fport (.findnode target e)).2.sent =
      st.sent ++
        (chunksOf maxNeighbors
          ((closestLiveNodes st.tabNodes target bucketSize).map nodeToRPC)).map
          (fun c => (⟨fip, fport, 0, .neighbors c (st.now + expirationD)⟩ : Dgram)) ∧
    (chunksOf maxNeighbors
        ((closestLiveNodes st.tabNodes target bucketSize).map nodeToRPC)).flatten =
      (closestLiveNodes st.tabNodes target bucketSize).map nodeToRPC ∧
    (chunksOf maxNeighbors
        ((closestLiveNodes st.tabNodes target bucketSize).map nodeToRPC)).length =
      (((closestLiveNodes st.tabNodes target bucketSize).map nodeToRPC).length +
        (maxNeighbors - 1)) / maxNeighbors ∧
    (∀ nd ∈ closestLiveNodes st.tabNodes target bucketSize, 0 < nd.livenessChecks) ∧
    (chunksOf maxNeighbors
        ((closestLiveNodes st.tabNodes target bucketSize).map nodeToRPC)).Pairwise
      (fun c₁ c₂ => ∀ a ∈ c₁, ∀ b ∈ c₂, xorDist a.id target ≤ xorDist b.id target) := by
  refine ⟨?_, ?_, chunksOf_flatten _ _, chunksOf_length _ (by decide) _,
    closestLive_live _ _ _, ?_⟩
  · simp only [handlePacket, Packet.expirationOf, if_neg hfresh, dispatchPacket,
      handleFindnode, hbond, if_true]
  · simp only [handlePacket, Packet.expirationOf, if_neg hfresh, dispatchPacket,
      handleFindnode, hbond, if_true]
  · have hp : ((closestLiveNodes st.tabNodes target bucketSize).map nodeToRPC).Pairwise
        (fun a b => xorDist a.id target ≤ xorDist b.id target) := by
      rw [List.pairwise_map]
      exact closestLive_pairwise st.tabNodes target bucketSize
    have hflat := chunksOf_flatten maxNeighbors
      ((closestLiveNodes st.tabNodes target bucketSize).map nodeToRPC)
    have hpf : ((chunksOf maxNeighbors
        ((closestLiveNodes st.tabNodes target bucketSize).map nodeToRPC)).flatten).Pairwise
        (fun a b => xorDist a.id target ≤ xorDist b.id target) := hflat.symm ▸ hp
    exact (List.pairwise_flatten.mp hpf).2

/-- A concrete transport state for the C3 witness: three table nodes,
two of them live, and an existing bond for sender (1, 2). -/
def c3State : UDPState where
  loopSt := LoopState.init
  lastPong := [((1, 2), 100)]
  lastPing := []
  tabNodes := [⟨5, 11, 2000, 2001, 1⟩, ⟨6, 12, 2000, 2001, 0⟩, ⟨7, 13, 2000, 2001, 2⟩]
  localEndpoint := ⟨5, 6, 7⟩
  localRecord := ⟨9, 1⟩
  now := 100
  cfg := ⟨500, 3⟩
  sent := []

/-- Witness for C3 at a concrete bonded state. -/
theorem C3_neighbors_match_table_query_witness :
    ¬ (150 < c3State.now) ∧ checkBond c3State 1 2 = true ∧
    ((handlePacket c3State 1 2 3 (.findnode 9 150)).1 = none ∧
     (handlePacket c3State 1 2 3 (.findnode 9 150)).2.sent =
       c3State.sent ++
         (chunksOf maxNeighbors
           ((closestLiveNodes c3State.tabNodes 9 bucketSize).map nodeToRPC)).map
           (fun c => (⟨2, 3, 0, .neighbors c (c3State.now + expirationD)⟩ : Dgram)) ∧
     (chunksOf maxNeighbors
         ((closestLiveNodes c3State.tabNodes 9 bucketSize).map nodeToRPC)).flatten =
       (closestLiveNodes c3State.tabNodes 9 bucketSize).map nodeToRPC ∧
     (chunksOf maxNeighbors
         ((closestLiveNodes c3State.tabNodes 9 bucketSize).map nodeToRPC)).length =
       (((closestLiveNodes c3State.tabNodes 9 bucketSize).map nodeToRPC).length +
         (maxNeighbors - 1)) / maxNeighbors ∧
     (∀ nd ∈ closestLiveNodes c3State.tabNodes 9 bucketSize, 0 < nd.livenessChecks) ∧
     (chunksOf maxNeighbors
         ((closestLiveNodes c3State.tabNodes 9 bucketSize).map nodeToRPC)).Pairwise
       (fun c₁ c₂ => ∀ a ∈ c₁, ∀ b ∈ c₂, xorDist a.id 9 ≤ xorDist b.id 9)) :=
  ⟨by decide, by decide,
    C3_neighbors_match_table_query c3State 1 2 3 9 150 (by decide) (by decide)⟩

/-! ### Claim C7: ENRRequest gating and record mirroring -/

/-- C7: an ENRRequest from a sender with no prior bond is rejected with
the UnknownNode error; after a Ping/Pong round trip with that sender
(inbound Ping answered by a Pong and a reverse Ping, whose matching
Pong is then received), the same ENRRequest is answered with an
ENRResponse embedding the local node's current record, and the ENR
sequence numbers carried in the prior Pong and reverse Ping equal that
record's sequence number. -/
theorem C7_enr_request_gate_and_mirror (st0 : UDPState) (rid rip rport : Nat)
    (v : Nat) (fromEp toEp toEp' : Endpoint) (e1 e2 e3 e4 s2 s3 : Nat)
    (hpend0 : st0.loopSt.pending = []) (hcl : st0.loopSt.closed = false)
    (hnopong : lookupTime st0.lastPong rid rip = none)
    (hnoping : lookupTime st0.lastPing rid rip = none)
    (hunknown : knownToTable st0 rid = false)
    (hf1 : ¬ e1 < st0.now) (hf2 : ¬ e2 < st0.now)
    (hf3 : ¬ e3 < st0.now) (hf4 : ¬ e4 < st0.now) :
    handlePacket st0 rid rip rport (.enrRequest e1) = (some DErr.unknownNode, st0) ∧
    (handlePacket st0 rid rip rport (.ping v fromEp toEp e2 s2)).2.sent =
      st0.sent ++
        [⟨rip, rport, 0, .pong ⟨rip, rport, fromEp.tcp⟩
            (pktHash (.ping v fromEp toEp e2 s2)) (st0.now + expirationD)
            st0.localRecord.seq⟩,
         ⟨rip, rport, st0.cfg.pingBackDelay, .ping 4 st0.localEndpoint ⟨rip, rport, 0⟩
            (st0.now + expirationD) st0.localRecord.seq⟩] ∧
    (handlePacket (handlePacket st0 rid rip rport (.ping v fromEp toEp e2 s2)).2
        rid rip rport
        (.pong toEp' (pktHash (.ping 4 st0.localEndpoint ⟨rip, rport, 0⟩
          (st0.now + expirationD) st0.localRecord.seq)) e3 s3)).1 = none ∧
    (handlePacket
        (handlePacket (handlePacket st0 rid rip rport (.ping v fromEp toEp e2 s2)).2
          rid rip rport
          (.pong toEp' (pktHash (.ping 4 st0.localEndpoint ⟨rip, rport, 0⟩
            (st0.now + expirationD) st0.localRecord.seq)) e3 s3)).2
        rid rip rport (.enrRequest e4)).1 = none ∧
    (handlePacket
        (handlePacket (handlePacket st0 rid rip rport (.ping v fromEp toEp e2 s2)).2
          rid rip rport
          (.pong toEp' (pktHash (.ping 4 st0.localEndpoint ⟨rip, rport, 0⟩
            (st0.now + expirationD) st0.localRecord.seq)) e3 s3)).2
        rid rip rport (.enrRequest e4)).2.sent =
      (handlePacket (handlePacket st0 rid rip rport (.ping v fromEp toEp e2 s2)).2
          rid rip rport
          (.pong toEp' (pktHash (.ping 4 st0.localEndpoint ⟨rip, rport, 0⟩
            (st0.now + expirationD) st0.localRecord.seq)) e3 s3)).2.sent ++
        [⟨rip, rport, 0, .enrResponse (pktHash (.enrRequest e4)) st0.localRecord⟩] := by
  have hnobond : checkBond st0 rid rip = false := by
    simp [checkBond, hnopong, hnoping, recentTime]
  have hst1 : (handlePacket st0 rid rip rport (.ping v fromEp toEp e2 s2)).2 =
      { st0 with
        loopSt := { st0.loopSt with
          pending := [⟨st0.loopSt.nextId, 2, rid, rip, rport,
            .pongMatch (pktHash (.ping 4 st0.localEndpoint ⟨rip, rport, 0⟩
              (st0.now + expirationD) st0.localRecord.seq)), []⟩]
          nextId := st0.loopSt.nextId + 1 }
        lastPing := ((rid, rip), st0.now) :: st0.lastPing
        sent := st0.sent ++
          [⟨rip, rport, 0, .pong ⟨rip, rport, fromEp.tcp⟩
              (pktHash (.ping v fromEp toEp e2 s2)) (st0.now + expirationD)
              st0.localRecord.seq⟩,
           ⟨rip, rport, st0.cfg.pingBackDelay, .ping 4 st0.localEndpoint ⟨rip, rport, 0⟩
              (st0.now + expirationD) st0.localRecord.seq⟩] } := by
    simp [handlePacket, Packet.expirationOf, if_neg hf2, dispatchPacket, handlePing,
      hunknown, sendPing, updateLastPing, step, hcl, hpend0]
  have hst2 : handlePacket (handlePacket st0 rid rip rport (.ping v fromEp toEp e2 s2)).2
      rid rip rport
      (.pong toEp' (pktHash (.ping 4 st0.localEndpoint ⟨rip, rport, 0⟩
        (st0.now + expirationD) st0.localRecord.seq)) e3 s3) =
      (none, { st0 with
        loopSt := { st0.loopSt with
          pending := []
          delivered := st0.loopSt.delivered ++ [(st0.loopSt.nextId, (none, []))]
          nextId := st0.loopSt.nextId + 1 }
        lastPong := ((rid, rip), st0.now) :: st0.lastPong
        lastPing := ((rid, rip), st0.now) :: st0.lastPing
        sent := st0.sent ++
          [⟨rip, rport, 0, .pong ⟨rip, rport, fromEp.tcp⟩
              (pktHash (.ping v fromEp toEp e2 s2)) (st0.now + expirationD)
              st0.localRecord.seq⟩,
           ⟨rip, rport, st0.cfg.pingBackDelay, .ping 4 st0.localEndpoint ⟨rip, rport, 0⟩
              (st0.now + expirationD) st0.localRecord.seq⟩] }) := by
    rw [hst1]
    simp only [handlePacket, Packet.expirationOf, if_neg hf3, dispatchPacket, replyPath,
      scanReply_pongSingle, updateLastPong]
    simp
  refine ⟨?_, ?_, ?_, ?_, ?_⟩
  · simp only [handlePacket, Packet.expirationOf, if_neg hf1, dispatchPacket,
      handleENRRequest, hnobond, Bool.false_eq_true, if_false]
  · rw [hst1]
  · rw [hst2]
  · rw [hst2]
    simp [handlePacket, Packet.expirationOf, if_neg hf4, dispatchPacket, handleENRRequest,
      checkBond, lookupTime, recentTime, bondExpiration]
  · rw [hst2]
    simp [handlePacket, Packet.expirationOf, if_neg hf4, dispatchPacket, handleENRRequest,
      checkBond, lookupTime, recentTime, bondExpiration]

/-- Witness for C7 at a concrete never-bonded sender. -/
theorem C7_enr_request_gate_and_mirror_witness :
    lookupTime sampleState.lastPong 1 2 = none ∧
    knownToTable sampleState 1 = false ∧
    (handlePacket sampleState 1 2 3 (.enrRequest 150) = (some DErr.unknownNode, sampleState) ∧
     (handlePacket sampleState 1 2 3 (.ping 4 ⟨9, 9, 9⟩ ⟨8, 8, 8⟩ 151 0)).2.sent =
       sampleState.sent ++
         [⟨2, 3, 0, .pong ⟨2, 3, (⟨9, 9, 9⟩ : Endpoint).tcp⟩
             (pktHash (.ping 4 ⟨9, 9, 9⟩ ⟨8, 8, 8⟩ 151 0)) (sampleState.now + expirationD)
             sampleState.localRecord.seq⟩,
          ⟨2, 3, sampleState.cfg.pingBackDelay, .ping 4 sampleState.localEndpoint ⟨2, 3, 0⟩
             (sampleState.now + expirationD) sampleState.localRecord.seq⟩] ∧
     (handlePacket (handlePacket sampleState 1 2 3 (.ping 4 ⟨9, 9, 9⟩ ⟨8, 8, 8⟩ 151 0)).2
         1 2 3
         (.pong ⟨7, 7, 7⟩ (pktHash (.ping 4 sampleState.localEndpoint ⟨2, 3, 0⟩
           (sampleState.now + expirationD) sampleState.localRecord.seq)) 152 0)).1 = none ∧
     (handlePacket
         (handlePacket (handlePacket sampleState 1 2 3 (.ping 4 ⟨9, 9, 9⟩ ⟨8, 8, 8⟩ 151 0)).2
           1 2 3
           (.pong ⟨7, 7, 7⟩ (pktHash (.ping 4 sampleState.localEndpoint ⟨2, 3, 0⟩
             (sampleState.now + expirationD) sampleState.localRecord.seq)) 152 0)).2
         1 2 3 (.enrRequest 153)).1 = none ∧
     (handlePacket
         (handlePacket (handlePacket sampleState 1 2 3 (.ping 4 ⟨9, 9, 9⟩ ⟨8, 8, 8⟩ 151 0)).2
           1 2 3
           (.pong ⟨7, 7, 7⟩ (pktHash (.ping 4 sampleState.localEndpoint ⟨2, 3, 0⟩
             (sampleState.now + expirationD) sampleState.localRecord.seq)) 152 0)).2
         1 2 3 (.enrRequest 153)).2.sent =
       (handlePacket (handlePacket sampleState 1 2 3 (.ping 4 ⟨9, 9, 9⟩ ⟨8, 8, 8⟩ 151 0)).2
           1 2 3
           (.pong ⟨7, 7, 7⟩ (pktHash (.ping 4 sampleState.localEndpoint ⟨2, 3, 0⟩
             (sampleState.now + expirationD) sampleState.localRecord.seq)) 152 0)).2.sent ++
         [⟨2, 3, 0, .enrResponse (pktHash (.enrRequest 153)) sampleState.localRecord⟩]) :=
  ⟨rfl, by decide,
    C7_enr_request_gate_and_mirror sampleState 1 2 3 4 ⟨9, 9, 9⟩ ⟨8, 8, 8⟩ ⟨7, 7, 7⟩
      150 151 152 153 0 0 rfl rfl rfl rfl (by decide) (by decide) (by decide)
      (by decide) (by decide)⟩

/-! ### Claims C4 and C10: the findnode caller -/

theorem filter_flatten_map (p : α → Bool) (l : List (List α)) :
    (l.map (List.filter p)).flatten = (l.flatten).filter p := by
  induction l with
  | nil => simp
  | cons x xs ih =>
    rw [List.map_cons, List.flatten_cons, List.flatten_cons, List.filter_append, ih]

theorem runEvents_cons (st : LoopState) (e : Event) (es : List Event) :
    runEvents st (e :: es) = runEvents (step st e) es := rfl

theorem neighborsAcc_run (toID toIP toPort : Nat) (replies : List (List RNode))
    (st : LoopState) (m : Matcher)
    (hm : m.strat = .neighborsAcc) (hpt : m.ptype = 4)
    (hid : m.fromID = toID) (hip : m.fromIP = toIP) (hport : m.fromPort = toPort)
    (hp : st.pending = [m]) :
    runEvents st (replies.map fun ns => .reply toID toIP toPort (.neighbors ns 0)) =
      { st with pending :=
          [{ m with acc := m.acc ++ (replies.map (List.filter validNode)).flatten }] } := by
  induction replies generalizing st m hm hpt hid hip hport hp with
  | nil =>
    have h0 : runEvents st [] = st := rfl
    rw [List.map_nil, h0]
    have hme : ({ m with acc := m.acc ++
        (List.map (List.filter validNode) ([] : List (List RNode))).flatten }) = m := by
      simp
    rw [hme, ← hp]
  | cons ns rest ih =>
    have hkey : keyMatches m toID toIP toPort (.neighbors ns 0) = true := by
      simp [keyMatches, hid, hip, hport, hpt, Packet.kind]
    have hscan : scanReply toID toIP toPort (.neighbors ns 0) st.pending =
        (true, [{ m with acc := m.acc ++ ns.filter validNode }], []) := by
      rw [hp, scanReply]
      simp [hkey, hm, applyStrategy]
    rw [List.map_cons, runEvents_cons]
    have hstep : step st (.reply toID toIP toPort (.neighbors ns 0)) =
        { st with pending := [{ m with acc := m.acc ++ ns.filter validNode }] } := by
      simp [step, hscan]
    rw [hstep]
    rw [ih { st with pending := [{ m with acc := m.acc ++ ns.filter validNode }] }
      { m with acc := m.acc ++ ns.filter validNode } hm hpt hid hip hport rfl]
    simp [List.flatten_cons, List.append_assoc]

/-- Modelled from the spec: the blocking findnode caller viewed over a
given schedule of inbound Neighbors replies arriving before the
matcher's deadline: it registers a Neighbors matcher, accumulates the
valid nodes of every reply packet (in arrival order), finalizes only
when the deadline fires, and then — per the query-engine contract —
returns the accumulated nodes with nil error when at least one node was
accumulated, or an empty list with the Timeout error when none was. -/
def findnodeRun (toID toIP toPort : Nat) (replies : List (List RNode)) :
    List RNode × Option DErr :=
  let st1 := step LoopState.init (.register 4 toID toIP toPort .neighborsAcc)
  let st2 := runEvents st1 (replies.map fun ns => .reply toID toIP toPort (.neighbors ns 0))
  let st3 := step st2 (.timerFire 0)
  match st3.delivered.lookup 0 with
  | some (some DErr.timeout, acc) =>
    if acc.isEmpty then ([], some DErr.timeout) else (acc, none)
  | some (err, acc) => (acc, err)
  | none => ([], some DErr.timeout)

theorem findnodeRun_eq (toID toIP toPort : Nat) (replies : List (List RNode)) :
    findnodeRun toID toIP toPort replies =
      ((replies.flatten).filter validNode,
       if (replies.flatten).filter validNode = [] then some DErr.timeout else none) := by
  have hreg : step LoopState.init (.register 4 toID toIP toPort .neighborsAcc) =
      { pending := [⟨0, 4, toID, toIP, toPort, .neighborsAcc, []⟩],
        delivered := [], nextId := 1, closed := false } := by
    simp [step, LoopState.init]
  have hrun := neighborsAcc_run toID toIP toPort replies
    ({ pending := [⟨0, 4, toID, toIP, toPort, .neighborsAcc, []⟩],
       delivered := [], nextId := 1, closed := false } : LoopState)
    ⟨0, 4, toID, toIP, toPort, .neighborsAcc, []⟩ rfl rfl rfl rfl rfl rfl
  simp only [List.nil_append, filter_flatten_map] at hrun
  have hfire : step
      ({ pending := [⟨0, 4, toID, toIP, toPort, .neighborsAcc,
          (replies.flatten).filter validNode⟩],
         delivered := [], nextId := 1, closed := false } : LoopState) (.timerFire 0) =
      { pending := [], delivered := [(0, (some DErr.timeout,
          (replies.flatten).filter validNode))], nextId := 1, closed := false } := by
    simp [step, fireTimer]
  simp only [findnodeRun, hreg, hrun, hfire, List.lookup, beq_self_eq_true]
  by_cases hac : (replies.flatten).filter validNode = []
  · have hemp : ((replies.flatten).filter validNode).isEmpty = true := by
      rw [hac]; rfl
    rw [if_pos hemp, if_pos hac, hac]
  · have hemp : ¬ (((replies.flatten).filter validNode).isEmpty = true) :=
      fun hh => hac (List.isEmpty_iff.mp hh)
    rw [if_neg hemp, if_neg hac]

/-- C4: for every findnode call whose matcher reaches its deadline
(modelled by `findnodeRun` over an arbitrary schedule of Neighbors
replies arriving before the deadline): timing out with zero accumulated
nodes yields an empty list with the Timeout error, timing out with
accumulated nodes yields those nodes with nil error, and in particular
a call answered by nobody returns exactly the empty list plus Timeout
and never a nil error. -/
theorem C4_findnode_timeout_semantics (toID toIP toPort : Nat)
    (replies : List (List RNode)) :
    ((findnodeRun toID toIP toPort replies).2 = some DErr.timeout ↔
      (findnodeRun toID toIP toPort replies).1 = []) ∧
    ((findnodeRun toID toIP toPort replies).2 = none ↔
      (findnodeRun toID toIP toPort replies).1 ≠ []) ∧
    (replies = [] → findnodeRun toID toIP toPort replies = ([], some DErr.timeout)) := by
  refine ⟨?_, ?_, ?_⟩
  · by_cases h : (replies.flatten).filter validNode = [] <;>
      simp [findnodeRun_eq, h]
  · by_cases h : (replies.flatten).filter validNode = [] <;>
      simp [findnodeRun_eq, h]
  · intro he
    subst he
    simp [findnodeRun_eq]

/-- Witness for C4: a run with no replies times out with an empty
result, and a run with one valid node returns it with nil error. -/
theorem C4_findnode_timeout_semantics_witness :
    (([] : List (List RNode)) = [] →
      findnodeRun 1 2 3 [] = ([], some DErr.timeout)) ∧
    (findnodeRun 1 2 3 [[⟨5, 6, 2000, 2001⟩]]).2 = none :=
  ⟨(C4_findnode_timeout_semantics 1 2 3 []).2.2,
    ((C4_findnode_timeout_semantics 1 2 3 [[⟨5, 6, 2000, 2001⟩]]).2.1).mpr (by decide)⟩

/-- C10: the node list a findnode call returns consists of exactly the
entries of the received Neighbors packets that pass node-endpoint
validation (entries with a too-low declared UDP port are silently
omitted), in the order received. -/
theorem C10_invalid_neighbors_filtered (toID toIP toPort : Nat)
    (replies : List (List RNode)) :
    (findnodeRun toID toIP toPort replies).1 = (replies.flatten).filter validNode := by
  rw [findnodeRun_eq]

/-! ### Claim C5: at-most-once outcome delivery and idempotent resends -/

/-- A concrete transport state for the C5 resend scenario: one pending
ping matcher expecting reply token 555 from sender (8, 9, 30303). -/
def c5State : UDPState where
  loopSt := { pending := [⟨0, 2, 8, 9, 30303, .pongMatch 555, []⟩],
              delivered := [], nextId := 1, closed := false }
  lastPong := []
  lastPing := []
  tabNodes := []
  localEndpoint := ⟨1, 2, 3⟩
  localRecord := ⟨4, 5⟩
  now := 10
  cfg := ⟨500, 3⟩
  sent := []

/-- C5: over every event trace of the transport loop, each matcher's
result channel receives at most one terminal outcome (the delivered log
holds no duplicated channel id) and a matcher with a delivered outcome
is no longer registered; consequently resending a Pong that already
satisfied its matcher is rejected as an UnsolicitedReply and delivers
nothing again (concrete resend scenario in the second conjunct). -/
theorem C5_at_most_once_delivery :
    (∀ evs : List Event,
      ((runEvents LoopState.init evs).delivered.map Prod.fst).Nodup ∧
      ∀ m ∈ (runEvents LoopState.init evs).pending,
        m.mid ∉ (runEvents LoopState.init evs).delivered.map Prod.fst) ∧
    ((handlePacket c5State 8 9 30303 (.pong ⟨1, 2, 3⟩ 555 99 0)).1 = none ∧
     (handlePacket c5State 8 9 30303 (.pong ⟨1, 2, 3⟩ 555 99 0)).2.loopSt.delivered =
       [(0, (none, []))] ∧
     (handlePacket (handlePacket c5State 8 9 30303 (.pong ⟨1, 2, 3⟩ 555 99 0)).2
        8 9 30303 (.pong ⟨1, 2, 3⟩ 555 99 0)).1 = some DErr.unsolicitedReply ∧
     (handlePacket (handlePacket c5State 8 9 30303 (.pong ⟨1, 2, 3⟩ 555 99 0)).2
        8 9 30303 (.pong ⟨1, 2, 3⟩ 555 99 0)).2.loopSt.delivered =
       [(0, (none, []))]) := by
  constructor
  · intro evs
    obtain ⟨hnd, _⟩ := runEvents_inv evs _ init_inv
    rw [allMids, List.nodup_append] at hnd
    obtain ⟨_, h2, h3⟩ := hnd
    exact ⟨h2, fun m hm hmem => h3 (List.mem_map_of_mem _ hm) hmem⟩
  · exact ⟨by decide, by decide, by decide, by decide⟩

/-- Witness for C5: a freshly registered matcher is pending and its
channel id has received no outcome. -/
theorem C5_at_most_once_delivery_witness :
    (⟨0, 2, 8, 9, 30303, .pongMatch 555, []⟩ : Matcher) ∈
      (runEvents LoopState.init [.register 2 8 9 30303 (.pongMatch 555)]).pending ∧
    (⟨0, 2, 8, 9, 30303, .pongMatch 555, []⟩ : Matcher).mid ∉
      ((runEvents LoopState.init
        [.register 2 8 9 30303 (.pongMatch 555)]).delivered.map Prod.fst) :=
  ⟨by decide,
    (C5_at_most_once_delivery.1 [.register 2 8 9 30303 (.pongMatch 555)]).2
      ⟨0, 2, 8, 9, 30303, .pongMatch 555, []⟩ (by decide)⟩

/-! ### Claim C8: timeout partition over concurrently registered matchers -/

/-- Modelled from the test file (`TestUDPv4_responseTimeouts`): one
matcher registration request of the response-timeout experiment — the
expected packet type tag and origin key, always used with the test's
`(true, true)` callback. -/
structure MSpec where
  ptype : Nat
  fromID : Nat
  fromIP : Nat
  fromPort : Nat
deriving DecidableEq

/-- The registration event of a matcher request. -/
def regEvent (s : MSpec) : Event :=
  .register s.ptype s.fromID s.fromIP s.fromPort .alwaysDone

/-- The reply event answering a matcher request, carrying the test
file's bare-kind test packet. -/
def replyEvent (s : MSpec) : Event :=
  .reply s.fromID s.fromIP s.fromPort (.testpkt s.ptype)

/-- The (packet type, identity, IP, port) key of a matcher request. -/
def specKey (s : MSpec) : Nat × Nat × Nat × Nat :=
  (s.ptype, s.fromID, s.fromIP, s.fromPort)

/-- The matchers created by registering a list of requests, with
consecutive result-channel ids starting at `n0`. -/
def mkMatchers (n0 : Nat) : List MSpec → List Matcher
  | [] => []
  | s :: rest =>
    ⟨n0, s.ptype, s.fromID, s.fromIP, s.fromPort, .alwaysDone, []⟩ :: mkMatchers (n0 + 1) rest

/-- Modelled from the test file (`TestUDPv4_responseTimeouts`): the
response-timeout experiment: register all matchers concurrently, let a
reply arrive before the deadline for exactly those with packet type
above the threshold, then let every deadline elapse. -/
def runTimeoutScenario (th : Nat) (ms : List MSpec) : LoopState :=
  runEvents
    (runEvents (runEvents LoopState.init (ms.map regEvent))
      ((ms.filter fun s => th < s.ptype).map replyEvent))
    ((List.range' 0 ms.length).map Event.timerFire)

theorem keyMatches_mk (n0 : Nat) (s s' : MSpec) :
    (keyMatches ⟨n0, s.ptype, s.fromID, s.fromIP, s.fromPort, .alwaysDone, []⟩
      s'.fromID s'.fromIP s'.fromPort (.testpkt s'.ptype) = true) ↔
      specKey s = specKey s' := by
  simp [keyMatches, specKey, Packet.kind, Prod.ext_iff]
  tauto

theorem registerPhase (ms : List MSpec) (st : LoopState) (hcl : st.closed = false) :
    runEvents st (ms.map regEvent) =
      { st with pending := st.pending ++ mkMatchers st.nextId ms,
                nextId := st.nextId + ms.length } := by
  induction ms generalizing st hcl with
  | nil => simp [runEvents, mkMatchers]
  | cons s rest ih =>
    rw [List.map_cons, runEvents_cons]
    have hstep : step st (regEvent s) =
        { st with
          pending := st.pending ++
            [⟨st.nextId, s.ptype, s.fromID, s.fromIP, s.fromPort, .alwaysDone, []⟩]
          nextId := st.nextId + 1 } := by
      simp [step, regEvent, hcl]
    rw [hstep, ih { st with
      pending := st.pending ++
        [⟨st.nextId, s.ptype, s.fromID, s.fromIP, s.fromPort, .alwaysDone, []⟩]
      nextId := st.nextId + 1 } hcl]
    simp [mkMatchers, List.append_assoc]
    omega

theorem scanReply_skip_front (fid fip fport : Nat) (p : Packet) (P0 l : List Matcher)
    (h : ∀ m ∈ P0, keyMatches m fid fip fport p = false) :
    scanReply fid fip fport p (P0 ++ l) =
      ((scanReply fid fip fport p l).1,
       P0 ++ (scanReply fid fip fport p l).2.1,
       (scanReply fid fip fport p l).2.2) := by
  induction P0 with
  | nil => simp
  | cons m P0' ih =>
    have hm0 : keyMatches m fid fip fport p = false := h m (List.mem_cons_self _ _)
    rw [List.cons_append, scanReply,
      ih (fun m' hm' => h m' (List.mem_cons_of_mem _ hm'))]
    simp [hm0]

theorem scanReply_alwaysDone (fid fip fport tag : Nat) (P0 : List Matcher)
    (m : Matcher) (M' : List Matcher)
    (hmk : keyMatches m fid fip fport (.testpkt tag) = true)
    (hstrat : m.strat = .alwaysDone)
    (h0 : ∀ m' ∈ P0, keyMatches m' fid fip fport (.testpkt tag) = false) :
    scanReply fid fip fport (.testpkt tag) (P0 ++ m :: M') =
      (true, P0 ++ M', [(m.mid, (none, m.acc))]) := by
  rw [scanReply_skip_front fid fip fport _ P0 _ h0, scanReply]
  simp [hmk, hstrat, applyStrategy]

theorem replyPhase (th : Nat) (ms : List MSpec) (n0 : Nat) (st : LoopState)
    (P0 : List Matcher)
    (hpend : st.pending = P0 ++ mkMatchers n0 ms)
    (hnd : ms.Pairwise (fun a b => specKey a ≠ specKey b))
    (hP0 : ∀ m' ∈ P0, ∀ s' ∈ ms,
      keyMatches m' s'.fromID s'.fromIP s'.fromPort (.testpkt s'.ptype) = false) :
    runEvents st ((ms.filter fun s => th < s.ptype).map replyEvent) =
      { st with
        pending := P0 ++ (mkMatchers n0 ms).filter (fun m => m.ptype ≤ th)
        delivered := st.delivered ++
          ((mkMatchers n0 ms).filter (fun m => th < m.ptype)).map
            (fun m => (m.mid, ((none : Option DErr), ([] : List RNode)))) } := by
  induction ms generalizing n0 st P0 with
  | nil =>
    simp only [mkMatchers, List.append_nil] at hpend
    have h0 : runEvents st [] = st := rfl
    simp only [List.filter_nil, List.map_nil, h0, mkMatchers, List.append_nil]
    rw [← hpend]
  | cons s rest ih =>
    simp only [mkMatchers] at hpend
    obtain ⟨hrel, hnd'⟩ := List.pairwise_cons.mp hnd
    have hP0' : ∀ m' ∈ P0, ∀ s' ∈ rest,
        keyMatches m' s'.fromID s'.fromIP s'.fromPort (.testpkt s'.ptype) = false :=
      fun m' hm' s' hs' => hP0 m' hm' s' (List.mem_cons_of_mem _ hs')
    by_cases hhigh : th < s.ptype
    · rw [List.filter_cons_of_pos (by simpa using hhigh), List.map_cons, runEvents_cons]
      have hkm : keyMatches
          ⟨n0, s.ptype, s.fromID, s.fromIP, s.fromPort, .alwaysDone, []⟩
          s.fromID s.fromIP s.fromPort (.testpkt s.ptype) = true :=
        (keyMatches_mk n0 s s).mpr rfl
      have hscan := scanReply_alwaysDone s.fromID s.fromIP s.fromPort s.ptype P0
        ⟨n0, s.ptype, s.fromID, s.fromIP, s.fromPort, .alwaysDone, []⟩
        (mkMatchers (n0 + 1) rest) hkm rfl
        (fun m' hm' => hP0 m' hm' s (List.mem_cons_self _ _))
      have hstep : step st (replyEvent s) =
          { st with
            pending := P0 ++ mkMatchers (n0 + 1) rest
            delivered := st.delivered ++ [(n0, ((none : Option DErr), ([] : List RNode)))] } := by
        simp [step, replyEvent, hpend, hscan]
      rw [hstep, ih (n0 + 1)
        { st with
          pending := P0 ++ mkMatchers (n0 + 1) rest
          delivered := st.delivered ++ [(n0, ((none : Option DErr), ([] : List RNode)))] }
        P0 rfl hnd' hP0']
      have hple : ¬ (s.ptype ≤ th) := Nat.not_le.mpr hhigh
      simp [mkMatchers, List.filter_cons, hhigh, hple, List.append_assoc]
    · rw [List.filter_cons_of_neg (by simpa using hhigh)]
      have hple : s.ptype ≤ th := Nat.not_lt.mp hhigh
      have hP0'' : ∀ m' ∈ P0 ++
          [(⟨n0, s.ptype, s.fromID, s.fromIP, s.fromPort, .alwaysDone, []⟩ : Matcher)],
          ∀ s' ∈ rest,
          keyMatches m' s'.fromID s'.fromIP s'.fromPort (.testpkt s'.ptype) = false := by
        intro m' hm' s' hs'
        rcases List.mem_append.mp hm' with h | h
        · exact hP0' m' h s' hs'
        · simp only [List.mem_singleton] at h
          subst h
          exact Bool.eq_false_iff.mpr
            (fun hk => hrel s' hs' ((keyMatches_mk n0 s s').mp hk))
      rw [ih (n0 + 1) st
        (P0 ++ [⟨n0, s.ptype, s.fromID, s.fromIP, s.fromPort, .alwaysDone, []⟩])
        (by rw [hpend, List.append_assoc]; rfl) hnd' hP0'']
      simp [mkMatchers, List.filter_cons, hhigh, hple, List.append_assoc]

theorem timerPhase (k : Nat) : ∀ (a : Nat) (st : LoopState) (P : List Matcher),
    st.pending = P →
    P.Pairwise (fun m m' => m.mid < m'.mid) →
    (∀ m ∈ P, a ≤ m.mid ∧ m.mid < a + k) →
    runEvents st ((List.range' a k).map Event.timerFire) =
      { st with
        pending := []
        delivered := st.delivered ++
          P.map (fun m => (m.mid, (some DErr.timeout, m.acc))) } := by
  induction k with
  | zero =>
    intro a st P hpend hsorted hbound
    cases P with
    | nil =>
      have h0 : runEvents st [] = st := rfl
      simp only [List.range', List.map_nil, h0, List.map_nil, List.append_nil]
      rw [← hpend]
    | cons m P' => exact absurd (hbound m (List.mem_cons_self _ _)) (by omega)
  | succ k ih =>
    intro a st P hpend hsorted hbound
    rw [List.range'_succ, List.map_cons, runEvents_cons]
    cases P with
    | nil =>
      have hstep : step st (.timerFire a) = st := by
        simp [step, fireTimer_none a st.pending (by rw [hpend]; simp)]
      rw [hstep, ih (a + 1) st [] hpend (by simp) (by simp)]
    | cons m P' =>
      obtain ⟨hb1, hb2⟩ := hbound m (List.mem_cons_self _ _)
      obtain ⟨hrel, hsorted'⟩ := List.pairwise_cons.mp hsorted
      by_cases hma : m.mid = a
      · have hft : fireTimer a st.pending = (some m, P') := by
          rw [hpend, fireTimer]
          simp [hma]
        have hstep : step st (.timerFire a) =
            { st with
              pending := P'
              delivered := st.delivered ++ [(m.mid, (some DErr.timeout, m.acc))] } := by
          simp [step, hft]
        rw [hstep, ih (a + 1)
          { st with
            pending := P'
            delivered := st.delivered ++ [(m.mid, (some DErr.timeout, m.acc))] }
          P' rfl hsorted'
          (fun m' hm' => ⟨by have := hrel m' hm'; omega, by
            have := (hbound m' (List.mem_cons_of_mem _ hm')).2; omega⟩)]
        simp [List.append_assoc]
      · have hnone : ∀ m' ∈ st.pending, m'.mid ≠ a := by
          rw [hpend]
          intro m' hm'
          rcases List.mem_cons.mp hm' with h | h
          · subst h; exact hma
          · have := hrel m' h
            omega
        have hstep : step st (.timerFire a) = st := by
          simp [step, fireTimer_none a st.pending hnone]
        rw [hstep, ih (a + 1) st (m :: P') hpend hsorted ?_]
        intro m' hm'
        rcases List.mem_cons.mp hm' with h | h
        · subst h; omega
        · have h1 := hrel m' h
          have h2 := (hbound m' hm').2
          omega

theorem mkMatchers_mid_bounds (ms : List MSpec) : ∀ (n0 : Nat),
    ∀ m ∈ mkMatchers n0 ms, n0 ≤ m.mid ∧ m.mid < n0 + ms.length := by
  induction ms with
  | nil => intro n0 m hm; exact absurd hm (List.not_mem_nil m)
  | cons s rest ih =>
    intro n0 m hm
    rcases List.mem_cons.mp hm with h | h
    · subst h
      simp [List.length_cons]
    · have := ih (n0 + 1) m h
      constructor <;> [omega; (simp [List.length_cons]; omega)]

theorem mkMatchers_sorted (ms : List MSpec) : ∀ (n0 : Nat),
    (mkMatchers n0 ms).Pairwise (fun a b => a.mid < b.mid) := by
  induction ms with
  | nil => intro n0; simp [mkMatchers]
  | cons s rest ih =>
    intro n0
    rw [mkMatchers, List.pairwise_cons]
    exact ⟨fun m' hm' => by have := (mkMatchers_mid_bounds rest (n0 + 1) m' hm').1; simp; omega,
      ih (n0 + 1)⟩

theorem mkMatchers_map_mid (ms : List MSpec) : ∀ (n0 : Nat),
    (mkMatchers n0 ms).map Matcher.mid = List.range' n0 ms.length := by
  induction ms with
  | nil => intro n0; simp [mkMatchers]
  | cons s rest ih =>
    intro n0
    rw [mkMatchers, List.map_cons, List.length_cons, List.range'_succ, ih (n0 + 1)]

/-- C8: when N matchers with pairwise distinct (packet type, identity,
IP, port) keys are registered concurrently and exactly those with
packet type at or below the threshold never receive a reply (every
other matcher's reply arrives before the deadline window closes), then
after the deadlines elapse no matcher is left pending, the delivered
outcomes are exactly a nil-error outcome for every above-threshold
matcher and a Timeout outcome for every at-or-below-threshold matcher,
and the multiset of resolved result channels is exactly the N channels
— every matcher resolves exactly once. -/
theorem C8_timeout_partition (th : Nat) (ms : List MSpec)
    (hnd : ms.Pairwise (fun a b => specKey a ≠ specKey b)) :
    (runTimeoutScenario th ms).pending = [] ∧
    (runTimeoutScenario th ms).delivered =
      ((mkMatchers 0 ms).filter (fun m => th < m.ptype)).map
        (fun m => (m.mid, ((none : Option DErr), ([] : List RNode)))) ++
      ((mkMatchers 0 ms).filter (fun m => m.ptype ≤ th)).map
        (fun m => (m.mid, (some DErr.timeout, m.acc))) ∧
    ((runTimeoutScenario th ms).delivered.map Prod.fst).Perm (List.range ms.length) := by
  have h1 := registerPhase ms LoopState.init rfl
  have hpend1 : (runEvents LoopState.init (ms.map regEvent)).pending
      = [] ++ mkMatchers 0 ms := by
    rw [h1]; rfl
  have h2 := replyPhase th ms 0 (runEvents LoopState.init (ms.map regEvent)) [] hpend1 hnd
    (fun m' hm' => absurd hm' (List.not_mem_nil m'))
  have hpend2 : (runEvents (runEvents LoopState.init (ms.map regEvent))
      ((ms.filter fun s => th < s.ptype).map replyEvent)).pending
      = (mkMatchers 0 ms).filter (fun m => m.ptype ≤ th) := by
    rw [h2]; rfl
  have hdel2 : (runEvents (runEvents LoopState.init (ms.map regEvent))
      ((ms.filter fun s => th < s.ptype).map replyEvent)).delivered
      = ((mkMatchers 0 ms).filter (fun m => th < m.ptype)).map
          (fun m => (m.mid, ((none : Option DErr), ([] : List RNode)))) := by
    rw [h2, h1]; rfl
  have hsort : ((mkMatchers 0 ms).filter (fun m => m.ptype ≤ th)).Pairwise
      (fun a b => a.mid < b.mid) :=
    (mkMatchers_sorted ms 0).filter _
  have hbnd : ∀ m ∈ (mkMatchers 0 ms).filter (fun m => m.ptype ≤ th),
      0 ≤ m.mid ∧ m.mid < 0 + ms.length := by
    intro m hm
    have := mkMatchers_mid_bounds ms 0 m (List.mem_of_mem_filter hm)
    omega
  have h3 := timerPhase ms.length 0
    (runEvents (runEvents LoopState.init (ms.map regEvent))
      ((ms.filter fun s => th < s.ptype).map replyEvent))
    ((mkMatchers 0 ms).filter (fun m => m.ptype ≤ th)) hpend2 hsort hbnd
  refine ⟨?_, ?_, ?_⟩
  · rw [runTimeoutScenario, h3]
  · rw [runTimeoutScenario, h3, hdel2]
  · rw [runTimeoutScenario, h3, hdel2]
    rw [List.map_append, List.map_map, List.map_map]
    have hc1 : (Prod.fst ∘ fun m : Matcher =>
        (m.mid, ((none : Option DErr), ([] : List RNode)))) = Matcher.mid := rfl
    have hc2 : (Prod.fst ∘ fun m : Matcher =>
        (m.mid, (some DErr.timeout, m.acc))) = Matcher.mid := rfl
    rw [hc1, hc2]
    have hfun : (fun m : Matcher => decide (m.ptype ≤ th))
        = (fun m => !(decide (th < m.ptype))) := by
      funext m
      by_cases h : th < m.ptype
      · simp [h, Nat.not_le.mpr h]
      · simp [h, Nat.not_lt.mp h]
    have hperm : (((mkMatchers 0 ms).filter (fun m => th < m.ptype)).map Matcher.mid ++
        ((mkMatchers 0 ms).filter (fun m => m.ptype ≤ th)).map Matcher.mid).Perm
        ((mkMatchers 0 ms).map Matcher.mid) := by
      rw [hfun, ← List.map_append]
      exact (List.filter_append_perm _ _).map _
    refine hperm.trans ?_
    rw [mkMatchers_map_mid ms 0, List.range_eq_range']

/-- Witness for C8: three matchers with distinct keys, threshold 128;
the two above-threshold ones resolve with nil error, the remaining one
with Timeout, each exactly once. -/
theorem C8_timeout_partition_witness :
    ([⟨200, 1, 2, 3⟩, ⟨100, 4, 5, 6⟩, ⟨250, 7, 8, 9⟩] : List MSpec).Pairwise
      (fun a b => specKey a ≠ specKey b) ∧
    ((runTimeoutScenario 128
        [⟨200, 1, 2, 3⟩, ⟨100, 4, 5, 6⟩, ⟨250, 7, 8, 9⟩]).pending = [] ∧
     (runTimeoutScenario 128
        [⟨200, 1, 2, 3⟩, ⟨100, 4, 5, 6⟩, ⟨250, 7, 8, 9⟩]).delivered =
       ((mkMatchers 0 [⟨200, 1, 2, 3⟩, ⟨100, 4, 5, 6⟩, ⟨250, 7, 8, 9⟩]).filter
           (fun m => 128 < m.ptype)).map
         (fun m => (m.mid, ((none : Option DErr), ([] : List RNode)))) ++
       ((mkMatchers 0 [⟨200, 1, 2, 3⟩, ⟨100, 4, 5, 6⟩, ⟨250, 7, 8, 9⟩]).filter
           (fun m => m.ptype ≤ 128)).map
         (fun m => (m.mid, (some DErr.timeout, m.acc))) ∧
     ((runTimeoutScenario 128
        [⟨200, 1, 2, 3⟩, ⟨100, 4, 5, 6⟩, ⟨250, 7, 8, 9⟩]).delivered.map Prod.fst).Perm
       (List.range ([⟨200, 1, 2, 3⟩, ⟨100, 4, 5, 6⟩, ⟨250, 7, 8, 9⟩] : List MSpec).length)) :=
  ⟨by decide,
    C8_timeout_partition 128 [⟨200, 1, 2, 3⟩, ⟨100, 4, 5, 6⟩, ⟨250, 7, 8, 9⟩] (by decide)⟩
